import Mathlib

/-!
# Watch-registration tracking and read audit (package `reconcilers`)

A shallow embedding of `pkg/library/reconcilers/is_watched_enabled.go` (build tag
`integration`) and `pkg/library/reconcilers/is_watched_disabled.go` (build tag
`!integration`), followed by the properties established about them.

Conventions of the embedding:

* Go interface values that the code only forwards (`context.Context`, `handler.EventHandler`,
  `client.GetOption`, `manager.Manager`, `controller.Options`) are plain data.
* An external collaborator with hidden mutable state (the underlying `controller.Controller`,
  the underlying `client.Client`) is a record holding the list of calls it has received and a
  response function of that history and the current call; a call appends to the list.
* A method with a pointer receiver takes the receiver's value and returns the updated value.
  The one place where the code keeps a pointer for later use (the method value
  `isWatchedController.IsWatched` stored by `Complete`) goes through an explicit `Heap`.
* Predicates are deterministic functions of the event they are given, and an evaluator of
  type `func(o client.Object) bool` is a function of the heap and the object: neither
  writes to the object it is shown. Objects are non-nil.
* A Go run-time panic is the `Except.error` result.
-/

namespace reconcilers

/-! ## Collaborator data -/

/-- The identity of a Go run-time type, as compared by `reflect.TypeOf(x) != reflect.TypeOf(y)`. -/
abbrev GoType := String

/-- The `schema.GroupVersionKind` of an object. -/
structure GroupVersionKind where
  Group : String
  Version : String
  Kind : String
deriving DecidableEq, Repr

/-- A non-nil `client.Object`: its concrete Go type and the metadata the code reads
(`GetObjectKind().GroupVersionKind()`, `GetNamespace()`, `GetName()`, and the labels that
label predicates look at). -/
structure Object where
  goType : GoType
  gvk : GroupVersionKind
  ns : String
  name : String
  labels : List (String × String)
deriving DecidableEq, Repr

/-- The run-time type of an object, `reflect.TypeOf(o)`. -/
def reflect.TypeOf (o : Object) : GoType := o.goType

/-- The `event.CreateEvent` literal built by `IsWatched`. -/
structure CreateEvent where
  Object : Object

/-- The `event.DeleteEvent` literal built by `IsWatched`. -/
structure DeleteEvent where
  Object : Object

/-- The `event.GenericEvent` literal built by `IsWatched`. -/
structure GenericEvent where
  Object : Object

/-- The `event.UpdateEvent` literal built by `IsWatched`. -/
structure UpdateEvent where
  ObjectOld : Object
  ObjectNew : Object

/-- The `predicate.Predicate` interface: four event filters. -/
structure Predicate where
  Create : CreateEvent → Bool
  Delete : DeleteEvent → Bool
  Update : UpdateEvent → Bool
  Generic : GenericEvent → Bool

/-- A Go `error` value that is not nil; `Option Error` is the `error` interface. -/
structure Error where
  msg : String
deriving DecidableEq, Repr

/-- A `handler.EventHandler`, only ever forwarded. -/
structure EventHandler where
  id : Nat
deriving DecidableEq, Repr

/-- A `source.Source`. `ObjectType = some t` when the source implements the `sourceKind`
interface (`ObjectType() client.Object`) and its method returns `t`; `none` when it does not. -/
structure Source where
  id : String
  ObjectType : Option Object
deriving DecidableEq, Repr

/-- The arguments of one `controller.Controller.Watch` call. -/
structure WatchCall where
  src : Source
  eventhandler : EventHandler
  predicates : List Predicate

/-- The underlying `controller.Controller`: the `Watch` calls it has received so far, and the
error it answers a call with, given that history. -/
structure Controller where
  calls : List WatchCall
  respond : List WatchCall → WatchCall → Option Error

/-- The underlying controller's `Watch`: records the call and answers it. -/
def Controller.Watch (c : Controller) (src : Source) (eventhandler : EventHandler)
    (predicates : List Predicate) : Controller × Option Error :=
  ({ c with calls := c.calls ++ [⟨src, eventhandler, predicates⟩] },
   c.respond c.calls ⟨src, eventhandler, predicates⟩)

/-- An argument passed to `fmt.Printf` or to the logger as a key or a value. -/
inductive Value where
  | str (s : String)
  | gvk (g : GroupVersionKind)
  | source (s : Source)
deriving DecidableEq, Repr

/-- One `fmt.Printf(format, args...)` call: what the process writes to standard output. -/
structure PrintfCall where
  format : String
  args : List Value
deriving DecidableEq, Repr

/-- One entry received by the `logr.Logger` sink: `V(level).Info(msg, keysAndValues...)`. -/
structure LogEntry where
  level : Nat
  msg : String
  keysAndValues : List Value
deriving DecidableEq, Repr

/-- A `logr.Logger`, as the entries its sink has received. -/
structure Logger where
  entries : List LogEntry
deriving DecidableEq, Repr

/-- The call `logger.V(level).Info(msg, keysAndValues...)`. -/
def Logger.Info (l : Logger) (level : Nat) (msg : String) (keysAndValues : List Value) : Logger :=
  { l with entries := l.entries ++ [⟨level, msg, keysAndValues⟩] }

/-! ## The watch registry and the membership evaluator -/

/-- The `watch` struct. The field `Type` of the source is `ObjType` here (`Type` is reserved). -/
structure watch where
  Predicates : List Predicate
  ObjType : Object

/-- The `isWatchedController` struct: the embedded controller and the registry. -/
structure isWatchedController where
  Controller : Controller
  watches : List watch

/-- The condition of the `if` in the inner loop of `IsWatched`: the predicate turns the object
down as a create, delete, generic and update event (the update with the object as both old and
new state). -/
def rejectsAllEvents (p : Predicate) (o : Object) : Bool :=
  !p.Create ⟨o⟩ && !p.Delete ⟨o⟩ && !p.Generic ⟨o⟩ && !p.Update ⟨o, o⟩

/-- The inner loop of `IsWatched` over `w.Predicates` with the `return true` after it:
`false` as soon as a predicate rejects all events, `true` when the loop runs to its end. -/
def predicatesLoop : List Predicate → Object → Bool
  | [], _ => true
  | p :: ps, o => if rejectsAllEvents p o then false else predicatesLoop ps o

/-- The outer loop of `IsWatched` over `c.watches` with the final `return false`: a record of
another type is skipped (`continue`), the first record of the object's type decides. -/
def watchesLoop : List watch → Object → Bool
  | [], _ => false
  | w :: ws, o =>
    if reflect.TypeOf o != reflect.TypeOf w.ObjType then watchesLoop ws o
    else predicatesLoop w.Predicates o

/-- The method `(c *isWatchedController) IsWatched(o client.Object) bool`. -/
def isWatchedController.IsWatched (c : isWatchedController) (o : Object) : Bool :=
  watchesLoop c.watches o

/-- What `Watch` did besides updating the receiver: the error it returned and the lines it
printed. -/
structure WatchOutcome where
  controller : isWatchedController
  err : Option Error
  stdout : List PrintfCall

/-- The method `(c *isWatchedController) Watch(src, eventhandler, predicates...) error`. -/
def isWatchedController.Watch (c : isWatchedController) (src : Source)
    (eventhandler : EventHandler) (predicates : List Predicate) : WatchOutcome :=
  let step : List watch × List PrintfCall :=
    match src.ObjectType with
    | some t => (c.watches ++ [{ ObjType := t, Predicates := predicates }], [])
    | none => (c.watches, [⟨"Unknown source type: %+v\n", [Value.source src]⟩])
  let fwd := c.Controller.Watch src eventhandler predicates
  { controller := { Controller := fwd.1, watches := step.1 }, err := fwd.2, stdout := step.2 }

/-! ## The auditing client -/

/-- A `context.Context`, only ever forwarded. -/
structure Context where
  id : Nat
deriving DecidableEq, Repr

/-- A `client.ObjectKey` (namespace and name). -/
structure ObjectKey where
  Namespace : String
  Name : String
deriving DecidableEq, Repr

/-- A `client.GetOption`, only ever forwarded. -/
structure GetOption where
  id : Nat
deriving DecidableEq, Repr

/-- The arguments of one `client.Client.Get` call. -/
structure GetCall where
  ctx : Context
  key : ObjectKey
  obj : Object
  opts : List GetOption
deriving DecidableEq, Repr

/-- The underlying `client.Client`: the `Get` calls it has received so far, and its answer to a
call given that history: the target object as the call leaves it, and the error. -/
structure Client where
  calls : List GetCall
  respond : List GetCall → GetCall → Object × Option Error

/-- The underlying client's `Get`: records the call and answers it. -/
def Client.Get (c : Client) (ctx : Context) (key : ObjectKey) (obj : Object)
    (opts : List GetOption) : Client × Object × Option Error :=
  ({ c with calls := c.calls ++ [⟨ctx, key, obj, opts⟩] }, c.respond c.calls ⟨ctx, key, obj, opts⟩)

/-- The cells holding the `isWatchedController` values that pointers refer to: `cell p` is the
current value behind pointer `p`, `next` the first address not handed out yet. -/
structure Heap where
  next : Nat
  cell : Nat → isWatchedController

/-- The value behind `p` replaced by `c`. -/
def Heap.store (h : Heap) (p : Nat) (c : isWatchedController) : Heap :=
  { h with cell := fun q => if q = p then c else h.cell q }

/-- A Go value of type `func(o client.Object) bool`: it may read the state it captured, so its
answer is a function of the current heap and the object. -/
abbrev IsWatchedFunc := Heap → Object → Bool

/-- The `isWatchedClient` struct. -/
structure isWatchedClient where
  Client : Client
  logger : Logger
  isWatched : IsWatchedFunc

/-- The function `newIsWatchedClient(client, logger, isWatched)`. -/
def newIsWatchedClient (client : Client) (logger : Logger) (isWatched : IsWatchedFunc) :
    isWatchedClient :=
  { Client := client, isWatched := isWatched, logger := logger }

/-- What one `isWatchedClient.Get` call did: the receiver afterwards (its underlying client with
the calls received, its logger with the entries received), the target object afterwards, the
returned error, the objects the evaluator was called with, and the lines printed. -/
structure GetOutcome where
  client : isWatchedClient
  obj : Object
  err : Option Error
  isWatchedCalls : List Object
  stdout : List PrintfCall

/-- The method `(c *isWatchedClient) Get(ctx, key, obj, opts...) error`, run with the heap as
it is at the time of the call. -/
def isWatchedClient.Get (c : isWatchedClient) (heap : Heap) (ctx : Context) (key : ObjectKey)
    (obj : Object) (opts : List GetOption) : GetOutcome :=
  let r := c.Client.Get ctx key obj opts
  let obj := r.2.1
  match r.2.2 with
  | none =>
    if !c.isWatched heap obj then
      { client :=
          { c with
            Client := r.1
            logger := c.logger.Info 0 "Get without watch"
              [.str "gvk", .gvk obj.gvk, .str "namespace", .str obj.ns, .str "name",
               .str obj.name] }
        obj := obj
        err := none
        isWatchedCalls := [obj]
        stdout :=
          [⟨"Get without watch: %s=%+v, %s=%s, %s=%s\n",
            [.str "gvk", .gvk obj.gvk, .str "namespace", .str obj.ns, .str "name",
             .str obj.name]⟩] }
    else
      { client := { c with Client := r.1 }, obj := obj, err := none, isWatchedCalls := [obj],
        stdout := [] }
  | some e =>
    { client := { c with Client := r.1 }, obj := obj, err := some e, isWatchedCalls := [],
      stdout := [] }

/-- A value of the `client.Client` interface as returned by `BaseReconciler.Client()`: the raw
client, or a pointer to an `isWatchedClient`. -/
inductive ClientHandle where
  | raw (c : Client)
  | isWatched (c : isWatchedClient)

/-- What a read through a `ClientHandle` did: the handle afterwards, the target object
afterwards, the returned error, and the lines printed. -/
structure ReadOutcome where
  handle : ClientHandle
  obj : Object
  err : Option Error
  stdout : List PrintfCall

/-- The call `h.Get(ctx, key, obj, opts...)` on an interface value: dispatch on its dynamic
type. -/
def ClientHandle.Get (h : ClientHandle) (heap : Heap) (ctx : Context) (key : ObjectKey)
    (obj : Object) (opts : List GetOption) : ReadOutcome :=
  match h with
  | .raw c =>
    let r := c.Get ctx key obj opts
    { handle := .raw r.1, obj := r.2.1, err := r.2.2, stdout := [] }
  | .isWatched w =>
    let r := w.Get heap ctx key obj opts
    { handle := .isWatched r.client, obj := r.obj, err := r.err, stdout := r.stdout }

/-! ## The integration shim -/

/-- A value of the `controller.Controller` interface: nil, a non-nil pointer to an
`isWatchedController` (an address of the heap, as `newWatchedController` returns it), or any
other implementation. -/
inductive ControllerHandle where
  | nil
  | other (c : Controller)
  | watched (p : Nat)

/-- A Go run-time panic. -/
inductive Panic where
  | interfaceConversion
deriving DecidableEq, Repr

/-- Modelled from the spec: the `BaseReconciler` struct is declared outside the two source
files; these are the three fields the two files read and write: the raw data-access client,
the diagnostic sink, and the captured membership evaluator (nil until a setup succeeds). -/
structure BaseReconciler where
  client : Client
  logger : Logger
  IsWatched : Option IsWatchedFunc

/-- A `manager.Manager`, only ever forwarded. -/
structure Manager where
  id : Nat
deriving DecidableEq, Repr

/-- The `controller.Options`, only ever forwarded. -/
structure Options where
  id : Nat
deriving DecidableEq, Repr

/-- The type of the library constructor `controller.New(name, mgr, options)`: a controller and
an error. -/
abbrev ControllerNew := String → Manager → Options → Controller × Option Error

/-- The function `newWatchedController(name, mgr, options)`, over the library constructor it
calls; the wrapper it returns is a fresh cell of the heap. -/
def newWatchedController (controllerNew : ControllerNew) (heap : Heap) (name : String)
    (mgr : Manager) (options : Options) : Heap × ControllerHandle × Option Error :=
  let r := controllerNew name mgr options
  match r.2 with
  | some e => (heap, .nil, some e)
  | none =>
    ({ next := heap.next + 1
       cell := fun q => if q = heap.next then { Controller := r.1, watches := [] }
                        else heap.cell q },
     .watched heap.next, none)

/-- The method value `isWatchedController.IsWatched` for the receiver at address `p`: calling
it runs `IsWatched` on what the heap holds at `p` at the time of the call. -/
def methodValueIsWatched (p : Nat) : IsWatchedFunc :=
  fun heap o => (heap.cell p).IsWatched o

namespace integration

/-- The method `(b *BaseReconciler) Complete(controller, err) error` of the `integration`
build. The type assertion `controller.(*isWatchedController)` has no `ok` result, so it
panics on any other handle. -/
def BaseReconciler.Complete (b : BaseReconciler) (controller : ControllerHandle)
    (err : Option Error) : Except Panic (BaseReconciler × Option Error) :=
  match err with
  | some e => .ok (b, some e)
  | none =>
    match controller with
    | .watched p => .ok ({ b with IsWatched := some (methodValueIsWatched p) }, none)
    | .other _ => .error .interfaceConversion
    | .nil => .error .interfaceConversion

/-- The method `(b *BaseReconciler) Client() client.Client` of the `integration` build. -/
def BaseReconciler.Client (b : BaseReconciler) : ClientHandle :=
  match b.IsWatched with
  | some f => .isWatched (newIsWatchedClient b.client b.logger f)
  | none => .raw b.client

end integration

namespace nointegration

/-- The method `(b *BaseReconciler) Complete(controller, err) error` of the `!integration`
build. -/
def BaseReconciler.Complete (b : BaseReconciler) (_controller : ControllerHandle)
    (err : Option Error) : Except Panic (BaseReconciler × Option Error) :=
  .ok (b, err)

/-- The method `(b *BaseReconciler) Client() client.Client` of the `!integration` build. -/
def BaseReconciler.Client (b : BaseReconciler) : ClientHandle :=
  .raw b.client

end nointegration

/-! ## Specification-side definitions -/

/-- The acceptance of the specification, section 4.2 step 3:
`accepted = p.Create(o) OR p.Delete(o) OR p.Generic(o) OR p.Update(o, o)`. -/
def specAccepted (p : Predicate) (o : Object) : Bool :=
  p.Create ⟨o⟩ || p.Delete ⟨o⟩ || p.Generic ⟨o⟩ || p.Update ⟨o, o⟩

/-- The verdict of one record in the specification, section 4.2 steps 3 to 5: every predicate
of the record accepts. -/
def specVerdict (w : watch) (o : Object) : Bool :=
  w.Predicates.all (fun p => specAccepted p o)

/-- The first record, in registration order, whose type identity equals the object's
(specification, section 4.2 step 1). -/
def specFirstMatch (ws : List watch) (o : Object) : Option watch :=
  ws.find? (fun w => reflect.TypeOf w.ObjType == reflect.TypeOf o)

/-- The membership evaluator as the specification words it (section 4.2): no record of the
object's type gives `false`, otherwise the first such record gives its verdict. -/
def specIsWatched (ws : List watch) (o : Object) : Bool :=
  match specFirstMatch ws o with
  | none => false
  | some w => specVerdict w o

/-- The label test of the end-to-end scenario: the object carries label `x` with value `y`. -/
def hasLabel (x y : String) (o : Object) : Bool :=
  o.labels.lookup x == some y

/-- The predicate of the end-to-end scenario (specification, section 8): every event kind is
delivered exactly when the object (for an update, the new object) has label `x` equal to `y`. -/
def labelPredicate (x y : String) : Predicate :=
  { Create := fun e => hasLabel x y e.Object
    Delete := fun e => hasLabel x y e.Object
    Update := fun e => hasLabel x y e.ObjectNew
    Generic := fun e => hasLabel x y e.Object }

/-! ## Call sequences -/

/-- A run of `Watch` calls on one wrapper, in order; the receiver after the last one. -/
def watchAll (c : isWatchedController) (calls : List WatchCall) : isWatchedController :=
  calls.foldl (fun acc k => (acc.Watch k.src k.eventhandler k.predicates).controller) c

/-- The call `c.Watch(src, eventhandler, predicates...)` through the pointer `p`: the cell
behind `p` is replaced by the updated receiver. -/
def Heap.Watch (h : Heap) (p : Nat) (src : Source) (eventhandler : EventHandler)
    (predicates : List Predicate) : Heap × Option Error × List PrintfCall :=
  let r := (h.cell p).Watch src eventhandler predicates
  (h.store p r.controller, r.err, r.stdout)

/-- A run of `Complete` calls of the `integration` build on one reconciler, in order; the
reconciler after the last one, or the panic of the first call that panicked. -/
def integration.completeAll (b : BaseReconciler) :
    List (ControllerHandle × Option Error) → Except Panic BaseReconciler
  | [] => .ok b
  | k :: ks =>
    match integration.BaseReconciler.Complete b k.1 k.2 with
    | .ok r => integration.completeAll r.1 ks
    | .error e => .error e

/-- The entry the logger receives for an uncovered read of `o`: level 0, the message, and the
object's group-version-kind, namespace and name under their keys. -/
def getWithoutWatchEntry (o : Object) : LogEntry :=
  { level := 0, msg := "Get without watch",
    keysAndValues :=
      [Value.str "gvk", Value.gvk o.gvk, Value.str "namespace", Value.str o.ns,
       Value.str "name", Value.str o.name] }

/-- The line printed for an uncovered read of `o`: the same three fields under the same keys. -/
def getWithoutWatchLine (o : Object) : PrintfCall :=
  { format := "Get without watch: %s=%+v, %s=%s, %s=%s\n",
    args :=
      [Value.str "gvk", Value.gvk o.gvk, Value.str "namespace", Value.str o.ns,
       Value.str "name", Value.str o.name] }

/-! ## Concrete data used to instantiate the theorems -/

/-- A predicate that turns every event down (`predicate.Funcs` with four constant `false`). -/
def rejectAll : Predicate :=
  { Create := fun _ => false, Delete := fun _ => false, Update := fun _ => false,
    Generic := fun _ => false }

/-- A predicate that lets every event through. -/
def acceptAll : Predicate :=
  { Create := fun _ => true, Delete := fun _ => true, Update := fun _ => true,
    Generic := fun _ => true }

/-- A predicate that lets only update events through. -/
def updateOnly : Predicate :=
  { Create := fun _ => false, Delete := fun _ => false, Update := fun _ => true,
    Generic := fun _ => false }

/-- An object of kind `A` carrying the label `x=y`. -/
def objA : Object :=
  { goType := "*v1.A", gvk := ⟨"example.io", "v1", "A"⟩, ns := "default", name := "a1",
    labels := [("x", "y")] }

/-- An object of kind `A` without the label `x=y`. -/
def objAPlain : Object :=
  { goType := "*v1.A", gvk := ⟨"example.io", "v1", "A"⟩, ns := "default", name := "a2",
    labels := [("x", "z")] }

/-- An object of kind `B`. -/
def objB : Object :=
  { goType := "*v1.B", gvk := ⟨"example.io", "v1", "B"⟩, ns := "default", name := "b1",
    labels := [("x", "y")] }

/-- The empty value of kind `A` a watch source is declared with. -/
def emptyA : Object :=
  { goType := "*v1.A", gvk := ⟨"", "", ""⟩, ns := "", name := "", labels := [] }

/-- An underlying controller that has received no call and accepts every `Watch`. -/
def quietController : Controller :=
  { calls := [], respond := fun _ _ => none }

/-- An underlying controller that has received no call and fails every `Watch`. -/
def failingController : Controller :=
  { calls := [], respond := fun _ _ => some ⟨"watch failed"⟩ }

/-- An underlying client that has received no call and answers every `Get` by filling the
target with `stored` and no error. -/
def servingClient (stored : Object) : Client :=
  { calls := [], respond := fun _ _ => (stored, none) }

/-- An underlying client that has received no call and fails every `Get`, leaving the target
as it was. -/
def failingClient : Client :=
  { calls := [], respond := fun _ call => (call.obj, some ⟨"not found"⟩) }

/-- A heap on which nothing has been allocated. -/
def emptyHeap : Heap :=
  { next := 0, cell := fun _ => { Controller := quietController, watches := [] } }

/-- A reconciler on which no setup has succeeded yet. -/
def freshReconciler (client : Client) : BaseReconciler :=
  { client := client, logger := ⟨[]⟩, IsWatched := none }

/-- A library constructor that succeeds with `quietController`. -/
def workingNew : ControllerNew :=
  fun _ _ _ => (quietController, none)

/-- A library constructor that fails. -/
def brokenNew : ControllerNew :=
  fun _ _ _ => (quietController, some ⟨"no such manager"⟩)

/-- The heap of the end-to-end scenario: a wrapper built by `newWatchedController` on the empty
heap (it lands at address 0), then one `Watch` of a source of kind `A` with the predicate
accepting only the label `x=y`; nothing is registered for kind `B`. -/
def scenarioHeap : Heap :=
  (Heap.Watch (newWatchedController workingNew emptyHeap "scenario" ⟨0⟩ ⟨0⟩).1 0
    ⟨"kind A", some emptyA⟩ ⟨1⟩ [labelPredicate "x" "y"]).1

/-- The auditing client of the end-to-end scenario, over an underlying client that serves
`stored`, with the evaluator of the wrapper at address 0. -/
def scenarioClient (stored : Object) : isWatchedClient :=
  newIsWatchedClient (servingClient stored) ⟨[]⟩ (methodValueIsWatched 0)

end reconcilers

/-! ## Properties -/

namespace reconcilers

/-! ### The membership evaluator -/

theorem rejectsAllEvents_eq (p : Predicate) (o : Object) :
    rejectsAllEvents p o = !specAccepted p o := by
  unfold rejectsAllEvents specAccepted
  cases p.Create ⟨o⟩ <;> cases p.Delete ⟨o⟩ <;> cases p.Generic ⟨o⟩ <;> cases p.Update ⟨o, o⟩ <;> rfl

theorem specAccepted_iff (p : Predicate) (o : Object) :
    specAccepted p o = true ↔
      (p.Create ⟨o⟩ = true ∨ p.Delete ⟨o⟩ = true ∨ p.Generic ⟨o⟩ = true ∨ p.Update ⟨o, o⟩ = true) := by
  unfold specAccepted
  simp [Bool.or_eq_true, or_assoc]

theorem predicatesLoop_eq_all (ps : List Predicate) (o : Object) :
    predicatesLoop ps o = ps.all (fun p => specAccepted p o) := by
  induction ps with
  | nil => rfl
  | cons p ps ih =>
    simp only [predicatesLoop, List.all_cons, rejectsAllEvents_eq, ih]
    cases specAccepted p o <;> simp

theorem watchesLoop_eq_spec (ws : List watch) (o : Object) :
    watchesLoop ws o = specIsWatched ws o := by
  induction ws with
  | nil => rfl
  | cons w ws ih =>
    unfold specIsWatched specFirstMatch at ih ⊢
    by_cases h : reflect.TypeOf w.ObjType = reflect.TypeOf o
    · have h2 : (reflect.TypeOf o != reflect.TypeOf w.ObjType) = false := by simp [h]
      simp [watchesLoop, h2, List.find?, h, specVerdict, predicatesLoop_eq_all]
    · have h2 : (reflect.TypeOf o != reflect.TypeOf w.ObjType) = true := by
        simp [bne_iff_ne]; exact fun e => h e.symm
      have h3 : (reflect.TypeOf w.ObjType == reflect.TypeOf o) = false := by simp [h]
      simp only [watchesLoop, h2, if_true, List.find?, h3, ih]

theorem watchesLoop_skip (pre rest : List watch) (o : Object)
    (hpre : ∀ r ∈ pre, reflect.TypeOf r.ObjType ≠ reflect.TypeOf o) :
    watchesLoop (pre ++ rest) o = watchesLoop rest o := by
  induction pre with
  | nil => rfl
  | cons r pre ih =>
    have hr : reflect.TypeOf r.ObjType ≠ reflect.TypeOf o := hpre r (List.mem_cons_self _ _)
    have h2 : (reflect.TypeOf o != reflect.TypeOf r.ObjType) = true := by
      simp [bne_iff_ne]; exact fun e => hr e.symm
    simp only [List.cons_append, watchesLoop, h2, if_true]
    exact ih (fun x hx => hpre x (List.mem_cons_of_mem _ hx))

theorem watchesLoop_hit (w : watch) (rest : List watch) (o : Object)
    (hw : reflect.TypeOf w.ObjType = reflect.TypeOf o) :
    watchesLoop (w :: rest) o = predicatesLoop w.Predicates o := by
  have h2 : (reflect.TypeOf o != reflect.TypeOf w.ObjType) = false := by simp [hw]
  simp [watchesLoop, h2]

theorem watchesLoop_first (pre post : List watch) (w : watch) (o : Object)
    (hpre : ∀ r ∈ pre, reflect.TypeOf r.ObjType ≠ reflect.TypeOf o)
    (hw : reflect.TypeOf w.ObjType = reflect.TypeOf o) :
    watchesLoop (pre ++ w :: post) o = specVerdict w o := by
  rw [watchesLoop_skip pre _ o hpre, watchesLoop_hit w post o hw, predicatesLoop_eq_all]
  rfl

theorem watchesLoop_no_match (ws : List watch) (o : Object)
    (hnone : ∀ r ∈ ws, reflect.TypeOf r.ObjType ≠ reflect.TypeOf o) :
    watchesLoop ws o = false := by
  have h := watchesLoop_skip ws [] o hnone
  simpa [watchesLoop] using h

theorem specFirstMatch_first (pre post : List watch) (w : watch) (o : Object)
    (hpre : ∀ r ∈ pre, reflect.TypeOf r.ObjType ≠ reflect.TypeOf o)
    (hw : reflect.TypeOf w.ObjType = reflect.TypeOf o) :
    specFirstMatch (pre ++ w :: post) o = some w := by
  unfold specFirstMatch
  induction pre with
  | nil => simp [List.find?, hw]
  | cons r pre ih =>
    have hr : reflect.TypeOf r.ObjType ≠ reflect.TypeOf o := hpre r (List.mem_cons_self _ _)
    have h3 : (reflect.TypeOf r.ObjType == reflect.TypeOf o) = false := by simp [hr]
    simp only [List.cons_append, List.find?, h3]
    exact ih (fun x hx => hpre x (List.mem_cons_of_mem _ hx))

/-- Every registry either has no record of the object's type, or splits at the first one. -/
theorem registry_split (ws : List watch) (o : Object) :
    (∀ r ∈ ws, reflect.TypeOf r.ObjType ≠ reflect.TypeOf o) ∨
    ∃ pre w post, ws = pre ++ w :: post ∧
      (∀ r ∈ pre, reflect.TypeOf r.ObjType ≠ reflect.TypeOf o) ∧
      reflect.TypeOf w.ObjType = reflect.TypeOf o := by
  induction ws with
  | nil => left; simp
  | cons r ws ih =>
    by_cases h : reflect.TypeOf r.ObjType = reflect.TypeOf o
    · right; exact ⟨[], r, ws, rfl, by simp, h⟩
    · rcases ih with hn | ⟨pre, w, post, he, hp, hw⟩
      · left
        intro x hx
        rcases List.mem_cons.mp hx with rfl | hx
        · exact h
        · exact hn x hx
      · right
        refine ⟨r :: pre, w, post, by simp [he], ?_, hw⟩
        intro x hx
        rcases List.mem_cons.mp hx with rfl | hx
        · exact h
        · exact hp x hx

/-- C1. First match wins. For every registry and object, `IsWatched` is the verdict of the
first record, in registration order, whose type is exactly the object's type (and `false`
when there is none). When `w` is that first record, the result is `w`'s verdict whatever
records follow it; and if one of `w`'s predicates turns the object down on create, delete,
generic and update-with-itself, the result is `false` whatever a later record `w2` of the same
type holds. -/
theorem IsWatched_first_match_wins (K : Controller) (pre post : List watch) (w : watch)
    (o : Object)
    (hpre : ∀ r ∈ pre, reflect.TypeOf r.ObjType ≠ reflect.TypeOf o)
    (hw : reflect.TypeOf w.ObjType = reflect.TypeOf o) :
    (∀ (c : isWatchedController) (x : Object), c.IsWatched x = specIsWatched c.watches x) ∧
    specFirstMatch (pre ++ w :: post) o = some w ∧
    isWatchedController.IsWatched ⟨K, pre ++ w :: post⟩ o = specVerdict w o ∧
    (∀ (K2 : Controller) (post2 : List watch),
      isWatchedController.IsWatched ⟨K2, pre ++ w :: post2⟩ o =
        isWatchedController.IsWatched ⟨K, pre ++ w :: post⟩ o) ∧
    ((∃ p ∈ w.Predicates, p.Create ⟨o⟩ = false ∧ p.Delete ⟨o⟩ = false ∧
        p.Generic ⟨o⟩ = false ∧ p.Update ⟨o, o⟩ = false) →
      ∀ (mid tail : List watch) (w2 : watch),
        reflect.TypeOf w2.ObjType = reflect.TypeOf o →
        isWatchedController.IsWatched ⟨K, pre ++ w :: (mid ++ w2 :: tail)⟩ o = false) := by
  have key : ∀ (K2 : Controller) (post2 : List watch),
      isWatchedController.IsWatched ⟨K2, pre ++ w :: post2⟩ o = specVerdict w o :=
    fun K2 post2 => watchesLoop_first pre post2 w o hpre hw
  refine ⟨fun c x => watchesLoop_eq_spec c.watches x, specFirstMatch_first pre post w o hpre hw,
    key K post, fun K2 post2 => by rw [key K2 post2, key K post], ?_⟩
  rintro ⟨p, hp, h1, h2, h3, h4⟩ mid tail w2 _
  rw [key K (mid ++ w2 :: tail)]
  unfold specVerdict
  rw [List.all_eq_false]
  exact ⟨p, hp, by simp [specAccepted, h1, h2, h3, h4]⟩

/-- Witness of C1: two records of kind `A`, the first with `rejectAll`, the second with
`acceptAll`, and an object of kind `A`. -/
theorem IsWatched_first_match_wins_witness :
    (∀ r ∈ ([] : List watch), reflect.TypeOf r.ObjType ≠ reflect.TypeOf objA) ∧
    reflect.TypeOf (watch.mk [rejectAll] emptyA).ObjType = reflect.TypeOf objA ∧
    isWatchedController.IsWatched
      ⟨quietController, [⟨[rejectAll], emptyA⟩, ⟨[acceptAll], emptyA⟩]⟩ objA = false :=
  ⟨by simp, by decide,
    (IsWatched_first_match_wins quietController [] [⟨[acceptAll], emptyA⟩] ⟨[rejectAll], emptyA⟩
      objA (by simp) (by decide)).2.2.2.2
      ⟨rejectAll, by simp, rfl, rfl, rfl, rfl⟩ [] [] ⟨[acceptAll], emptyA⟩ (by decide)⟩

/-- C2. Acceptance rule. When `w` is the first record of the object's exact type, `IsWatched`
is `true` exactly when every predicate of `w` accepts the object as a create, a delete, a
generic or an update-with-itself event. One predicate of `w` that turns down all four makes
the result `false`; a predicate that accepts on the update alone counts as accepting. -/
theorem IsWatched_acceptance_rule (K : Controller) (pre post : List watch) (w : watch)
    (o : Object)
    (hpre : ∀ r ∈ pre, reflect.TypeOf r.ObjType ≠ reflect.TypeOf o)
    (hw : reflect.TypeOf w.ObjType = reflect.TypeOf o) :
    (isWatchedController.IsWatched ⟨K, pre ++ w :: post⟩ o = true ↔
      ∀ p ∈ w.Predicates, p.Create ⟨o⟩ = true ∨ p.Delete ⟨o⟩ = true ∨
        p.Generic ⟨o⟩ = true ∨ p.Update ⟨o, o⟩ = true) ∧
    (∀ p ∈ w.Predicates, p.Create ⟨o⟩ = false → p.Delete ⟨o⟩ = false →
      p.Generic ⟨o⟩ = false → p.Update ⟨o, o⟩ = false →
      isWatchedController.IsWatched ⟨K, pre ++ w :: post⟩ o = false) ∧
    (∀ p : Predicate, w.Predicates = [p] → p.Create ⟨o⟩ = false → p.Delete ⟨o⟩ = false →
      p.Generic ⟨o⟩ = false → p.Update ⟨o, o⟩ = true →
      isWatchedController.IsWatched ⟨K, pre ++ w :: post⟩ o = true) := by
  have key : isWatchedController.IsWatched ⟨K, pre ++ w :: post⟩ o = true ↔
      ∀ p ∈ w.Predicates, p.Create ⟨o⟩ = true ∨ p.Delete ⟨o⟩ = true ∨
        p.Generic ⟨o⟩ = true ∨ p.Update ⟨o, o⟩ = true := by
    show watchesLoop (pre ++ w :: post) o = true ↔ _
    rw [watchesLoop_first pre post w o hpre hw]
    unfold specVerdict
    rw [List.all_eq_true]
    exact forall_congr' fun p => imp_congr_right fun _ => specAccepted_iff p o
  refine ⟨key, ?_, ?_⟩
  · intro p hp h1 h2 h3 h4
    rw [← Bool.not_eq_true]
    intro ht
    have := key.mp ht p hp
    simp [h1, h2, h3, h4] at this
  · intro p hp _ _ _ h4
    apply key.mpr
    intro q hq
    rw [hp] at hq
    rcases List.mem_singleton.mp hq with rfl
    exact Or.inr (Or.inr (Or.inr h4))

/-- Witness of C2: one record of kind `A` whose only predicate accepts updates alone. -/
theorem IsWatched_acceptance_rule_witness :
    (∀ r ∈ ([] : List watch), reflect.TypeOf r.ObjType ≠ reflect.TypeOf objA) ∧
    reflect.TypeOf (watch.mk [updateOnly] emptyA).ObjType = reflect.TypeOf objA ∧
    isWatchedController.IsWatched ⟨quietController, [⟨[updateOnly], emptyA⟩]⟩ objA = true :=
  ⟨by simp, by decide,
    (IsWatched_acceptance_rule quietController [] [] ⟨[updateOnly], emptyA⟩ objA (by simp)
      (by decide)).2.2 updateOnly rfl rfl rfl rfl rfl⟩

/-- C3. Exact type identity decides matching. `IsWatched` is `false` whenever no record has
exactly the object's type, hence on the empty registry; with one record of type `T` and no
predicates it is `true` exactly for the objects whose type is `T`'s. -/
theorem IsWatched_exact_type (K : Controller) (ws : List watch) (T o : Object) :
    ((∀ r ∈ ws, reflect.TypeOf r.ObjType ≠ reflect.TypeOf o) →
      isWatchedController.IsWatched ⟨K, ws⟩ o = false) ∧
    isWatchedController.IsWatched ⟨K, []⟩ o = false ∧
    (reflect.TypeOf o = reflect.TypeOf T →
      isWatchedController.IsWatched ⟨K, [⟨[], T⟩]⟩ o = true) ∧
    (reflect.TypeOf o ≠ reflect.TypeOf T →
      isWatchedController.IsWatched ⟨K, [⟨[], T⟩]⟩ o = false) := by
  refine ⟨fun h => watchesLoop_no_match ws o h, rfl, ?_, ?_⟩
  · intro h
    show watchesLoop [⟨[], T⟩] o = true
    rw [watchesLoop_hit _ _ _ h.symm]
    rfl
  · intro h
    apply watchesLoop_no_match
    intro r hr
    rcases List.mem_singleton.mp hr with rfl
    exact fun e => h e.symm

/-- Witness of C3: a registry with one predicate-free record of kind `A`, read for an object
of kind `B` and for one of kind `A`. -/
theorem IsWatched_exact_type_witness :
    (∀ r ∈ [watch.mk [] emptyA], reflect.TypeOf r.ObjType ≠ reflect.TypeOf objB) ∧
    isWatchedController.IsWatched ⟨quietController, [⟨[], emptyA⟩]⟩ objB = false ∧
    isWatchedController.IsWatched ⟨quietController, [⟨[], emptyA⟩]⟩ objA = true :=
  ⟨by simp [reflect.TypeOf, emptyA, objB],
    (IsWatched_exact_type quietController [⟨[], emptyA⟩] emptyA objB).1
      (by simp [reflect.TypeOf, emptyA, objB]),
    (IsWatched_exact_type quietController [] emptyA objA).2.2.1 (by decide)⟩

theorem Watch_watches (c : isWatchedController) (src : Source) (eventhandler : EventHandler)
    (predicates : List Predicate) :
    (c.Watch src eventhandler predicates).controller.watches =
      c.watches ++ (match src.ObjectType with
        | some t => [⟨predicates, t⟩]
        | none => []) := by
  unfold isWatchedController.Watch
  cases src.ObjectType <;> simp

theorem watchAll_watches (calls : List WatchCall) (c : isWatchedController) :
    ∃ added, (watchAll c calls).watches = c.watches ++ added := by
  induction calls generalizing c with
  | nil => exact ⟨[], by simp [watchAll]⟩
  | cons k ks ih =>
    obtain ⟨added, h⟩ := ih (c.Watch k.src k.eventhandler k.predicates).controller
    rw [Watch_watches] at h
    refine ⟨(match k.src.ObjectType with
      | some t => [⟨k.predicates, t⟩]
      | none => []) ++ added, ?_⟩
    simp only [watchAll, List.foldl_cons] at h ⊢
    rw [h, List.append_assoc]

theorem watchesLoop_append_of_match (R added : List watch) (o : Object)
    (hm : ∃ r ∈ R, reflect.TypeOf r.ObjType = reflect.TypeOf o) :
    watchesLoop (R ++ added) o = watchesLoop R o := by
  rcases registry_split R o with hn | ⟨pre, w, post, he, hp, hw⟩
  · obtain ⟨r, hr, hrt⟩ := hm
    exact absurd hrt (hn r hr)
  · subst he
    rw [List.append_assoc, List.cons_append, watchesLoop_first pre _ w o hp hw,
      watchesLoop_first pre _ w o hp hw]

/-- C10. Registering more watches never un-covers an object. If `IsWatched` is `true` over
the registry `R` it is `true` over `R` with `w` appended; the two verdicts differ only when
no record of `R` has exactly the object's type and `w` has it; and once `R` holds a record of
the object's type, the verdict is the same after any run of later `Watch` calls. -/
theorem IsWatched_append_monotone (K K2 : Controller) (R : List watch) (w : watch)
    (o : Object) :
    (isWatchedController.IsWatched ⟨K, R⟩ o = true →
      isWatchedController.IsWatched ⟨K2, R ++ [w]⟩ o = true) ∧
    (isWatchedController.IsWatched ⟨K2, R ++ [w]⟩ o ≠ isWatchedController.IsWatched ⟨K, R⟩ o →
      (∀ r ∈ R, reflect.TypeOf r.ObjType ≠ reflect.TypeOf o) ∧
      reflect.TypeOf w.ObjType = reflect.TypeOf o) ∧
    ((∃ r ∈ R, reflect.TypeOf r.ObjType = reflect.TypeOf o) →
      ∀ calls : List WatchCall,
        (watchAll ⟨K, R⟩ calls).IsWatched o = isWatchedController.IsWatched ⟨K, R⟩ o) := by
  have same : (∃ r ∈ R, reflect.TypeOf r.ObjType = reflect.TypeOf o) →
      ∀ added, watchesLoop (R ++ added) o = watchesLoop R o :=
    fun hm added => watchesLoop_append_of_match R added o hm
  refine ⟨?_, ?_, ?_⟩
  · intro ht
    show watchesLoop (R ++ [w]) o = true
    rcases registry_split R o with hn | ⟨pre, x, post, he, hp, hx⟩
    · have hf : watchesLoop R o = false := watchesLoop_no_match R o hn
      have ht2 : watchesLoop R o = true := ht
      rw [hf] at ht2
      exact absurd ht2 (by simp)
    · rw [same ⟨x, by simp [he], hx⟩ [w]]
      exact ht
  · intro hne
    have hne2 : watchesLoop (R ++ [w]) o ≠ watchesLoop R o := hne
    by_cases hm : ∃ r ∈ R, reflect.TypeOf r.ObjType = reflect.TypeOf o
    · exact absurd (same hm [w]) hne2
    · have hn : ∀ r ∈ R, reflect.TypeOf r.ObjType ≠ reflect.TypeOf o :=
        fun r hr e => hm ⟨r, hr, e⟩
      refine ⟨hn, ?_⟩
      by_contra hwt
      apply hne2
      rw [watchesLoop_no_match R o hn]
      apply watchesLoop_no_match
      intro r hr
      rcases List.mem_append.mp hr with h | h
      · exact hn r h
      · rcases List.mem_singleton.mp h with rfl
        exact hwt
  · intro hm calls
    obtain ⟨added, h⟩ := watchAll_watches calls ⟨K, R⟩
    show watchesLoop (watchAll ⟨K, R⟩ calls).watches o = watchesLoop R o
    rw [h]
    exact same hm added

/-- Witness of C10: an object of kind `A` covered by a predicate-free record stays covered
when a record of kind `A` with `rejectAll` is appended. -/
theorem IsWatched_append_monotone_witness :
    isWatchedController.IsWatched ⟨quietController, [⟨[], emptyA⟩]⟩ objA = true ∧
    isWatchedController.IsWatched
      ⟨quietController, [⟨[], emptyA⟩] ++ [⟨[rejectAll], emptyA⟩]⟩ objA = true :=
  ⟨rfl,
    (IsWatched_append_monotone quietController quietController [⟨[], emptyA⟩]
      ⟨[rejectAll], emptyA⟩ objA).1 rfl⟩

/-! ### The watch-recording controller -/

/-- C6. Watch postcondition. `Watch` hands the source, the handler and the predicate list to
the underlying controller's `Watch` once (the underlying controller has received exactly that
one more call) and returns that call's error; the registry afterwards is the registry before
with the one record (the source's object type, the given predicates) appended when the source
declares an object type, and the registry before when it does not; the records that were there
are the first records afterwards, unchanged and in the same order. -/
theorem Watch_postcondition (c : isWatchedController) (src : Source)
    (eventhandler : EventHandler) (predicates : List Predicate) :
    (c.Watch src eventhandler predicates).controller.Controller.calls =
      c.Controller.calls ++ [⟨src, eventhandler, predicates⟩] ∧
    (c.Watch src eventhandler predicates).controller.Controller =
      (c.Controller.Watch src eventhandler predicates).1 ∧
    (c.Watch src eventhandler predicates).err =
      (c.Controller.Watch src eventhandler predicates).2 ∧
    (c.Watch src eventhandler predicates).err =
      c.Controller.respond c.Controller.calls ⟨src, eventhandler, predicates⟩ ∧
    (∀ t, src.ObjectType = some t →
      (c.Watch src eventhandler predicates).controller.watches =
        c.watches ++ [{ ObjType := t, Predicates := predicates }]) ∧
    (src.ObjectType = none →
      (c.Watch src eventhandler predicates).controller.watches = c.watches) ∧
    (c.Watch src eventhandler predicates).controller.watches.take c.watches.length =
      c.watches := by
  refine ⟨rfl, rfl, rfl, rfl, ?_, ?_, ?_⟩
  · intro t ht
    rw [Watch_watches, ht]
  · intro hn
    rw [Watch_watches, hn]
    simp
  · rw [Watch_watches]
    simp

/-- Witness of C6: a source of kind `A` registered on a wrapper that already holds a record,
over an underlying controller that fails the call; and a source without object type. -/
theorem Watch_postcondition_witness :
    (isWatchedController.Watch ⟨failingController, [⟨[acceptAll], objB⟩]⟩
        ⟨"kind A", some emptyA⟩ ⟨1⟩ [rejectAll]).controller.watches =
      [⟨[acceptAll], objB⟩] ++ [⟨[rejectAll], emptyA⟩] ∧
    (isWatchedController.Watch ⟨failingController, [⟨[acceptAll], objB⟩]⟩
        ⟨"kind A", some emptyA⟩ ⟨1⟩ [rejectAll]).err = some ⟨"watch failed"⟩ ∧
    (isWatchedController.Watch ⟨failingController, [⟨[acceptAll], objB⟩]⟩
        ⟨"channel", none⟩ ⟨1⟩ [rejectAll]).controller.watches = [⟨[acceptAll], objB⟩] :=
  ⟨(Watch_postcondition ⟨failingController, [⟨[acceptAll], objB⟩]⟩ ⟨"kind A", some emptyA⟩ ⟨1⟩
      [rejectAll]).2.2.2.2.1 emptyA rfl,
    (Watch_postcondition ⟨failingController, [⟨[acceptAll], objB⟩]⟩ ⟨"kind A", some emptyA⟩ ⟨1⟩
      [rejectAll]).2.2.2.1,
    (Watch_postcondition ⟨failingController, [⟨[acceptAll], objB⟩]⟩ ⟨"channel", none⟩ ⟨1⟩
      [rejectAll]).2.2.2.2.2.1 rfl⟩

/-! ### The auditing client -/

theorem Get_of_failure (c : isWatchedClient) (heap : Heap) (ctx : Context) (key : ObjectKey)
    (obj : Object) (opts : List GetOption) (e : Error)
    (h : (c.Client.Get ctx key obj opts).2.2 = some e) :
    c.Get heap ctx key obj opts =
      { client := { c with Client := (c.Client.Get ctx key obj opts).1 },
        obj := (c.Client.Get ctx key obj opts).2.1, err := some e, isWatchedCalls := [],
        stdout := [] } := by
  unfold isWatchedClient.Get
  simp only [h]

theorem Get_of_covered (c : isWatchedClient) (heap : Heap) (ctx : Context) (key : ObjectKey)
    (obj : Object) (opts : List GetOption)
    (h : (c.Client.Get ctx key obj opts).2.2 = none)
    (hw : c.isWatched heap (c.Client.Get ctx key obj opts).2.1 = true) :
    c.Get heap ctx key obj opts =
      { client := { c with Client := (c.Client.Get ctx key obj opts).1 },
        obj := (c.Client.Get ctx key obj opts).2.1, err := none,
        isWatchedCalls := [(c.Client.Get ctx key obj opts).2.1], stdout := [] } := by
  unfold isWatchedClient.Get
  simp only [h, hw]
  rfl

theorem Get_of_uncovered (c : isWatchedClient) (heap : Heap) (ctx : Context) (key : ObjectKey)
    (obj : Object) (opts : List GetOption)
    (h : (c.Client.Get ctx key obj opts).2.2 = none)
    (hw : c.isWatched heap (c.Client.Get ctx key obj opts).2.1 = false) :
    c.Get heap ctx key obj opts =
      { client :=
          { c with
            Client := (c.Client.Get ctx key obj opts).1
            logger :=
              ⟨c.logger.entries ++ [getWithoutWatchEntry (c.Client.Get ctx key obj opts).2.1]⟩ },
        obj := (c.Client.Get ctx key obj opts).2.1, err := none,
        isWatchedCalls := [(c.Client.Get ctx key obj opts).2.1],
        stdout := [getWithoutWatchLine (c.Client.Get ctx key obj opts).2.1] } := by
  unfold isWatchedClient.Get
  simp only [h, hw]
  rfl

/-- C4. Read transparency. `isWatchedClient.Get` calls the underlying client's `Get` once with
the same context, key, object and options (the underlying client has received exactly that
one more call), returns the error that call returned and leaves the target object as that
call left it, whatever the evaluator answers and whether the read succeeded or failed. -/
theorem Get_read_transparency (c : isWatchedClient) (heap : Heap) (ctx : Context)
    (key : ObjectKey) (obj : Object) (opts : List GetOption) :
    (c.Get heap ctx key obj opts).client.Client.calls =
      c.Client.calls ++ [⟨ctx, key, obj, opts⟩] ∧
    (c.Get heap ctx key obj opts).client.Client = (c.Client.Get ctx key obj opts).1 ∧
    (c.Get heap ctx key obj opts).obj = (c.Client.Get ctx key obj opts).2.1 ∧
    (c.Get heap ctx key obj opts).err = (c.Client.Get ctx key obj opts).2.2 := by
  cases h : (c.Client.Get ctx key obj opts).2.2 with
  | some e =>
    rw [Get_of_failure c heap ctx key obj opts e h]
    exact ⟨rfl, rfl, rfl, rfl⟩
  | none =>
    cases hw : c.isWatched heap (c.Client.Get ctx key obj opts).2.1 with
    | false =>
      rw [Get_of_uncovered c heap ctx key obj opts h hw]
      exact ⟨rfl, rfl, rfl, rfl⟩
    | true =>
      rw [Get_of_covered c heap ctx key obj opts h hw]
      exact ⟨rfl, rfl, rfl, rfl⟩

theorem watchesLoop_label_record (x y : String) (tA o : Object) :
    watchesLoop [⟨[labelPredicate x y], tA⟩] o =
      (reflect.TypeOf o == reflect.TypeOf tA && hasLabel x y o) := by
  by_cases h : reflect.TypeOf o = reflect.TypeOf tA
  · rw [watchesLoop_hit _ _ _ h.symm]
    have h1 : (reflect.TypeOf o == reflect.TypeOf tA) = true := by simp [h]
    rw [h1]
    cases hl : hasLabel x y o <;>
      simp [predicatesLoop, rejectsAllEvents, labelPredicate, hl]
  · have h1 : (reflect.TypeOf o == reflect.TypeOf tA) = false := by simp [h]
    rw [h1]
    rw [watchesLoop_no_match]
    · rfl
    · intro r hr
      rcases List.mem_singleton.mp hr with rfl
      exact fun e => h e.symm

/-- C5. Diagnostic exactly on uncovered successful reads. When the underlying `Get` returns
no error and the evaluator answers `false` for the retrieved object, `isWatchedClient.Get`
emits the one diagnostic for that object (one entry to the logger, one printed line, each
carrying its group-version-kind, namespace and name); in every other case it emits nothing.
The evaluator is called once, with the retrieved object, after a successful read and not at
all after a failed one. With the evaluator of a wrapper whose registry is the single record
(kind `A`, predicate accepting only label `x=y`), a successful read emits the diagnostic for
an object of another kind and for an object of kind `A` without the label, and emits nothing
for an object of kind `A` with the label. -/
theorem Get_diagnostic_iff (c : isWatchedClient) (heap : Heap) (ctx : Context)
    (key : ObjectKey) (obj : Object) (opts : List GetOption) :
    (((c.Client.Get ctx key obj opts).2.2 = none ∧
        c.isWatched heap (c.Client.Get ctx key obj opts).2.1 = false) →
      (c.Get heap ctx key obj opts).stdout =
        [getWithoutWatchLine (c.Client.Get ctx key obj opts).2.1] ∧
      (c.Get heap ctx key obj opts).client.logger.entries =
        c.logger.entries ++ [getWithoutWatchEntry (c.Client.Get ctx key obj opts).2.1]) ∧
    (¬ ((c.Client.Get ctx key obj opts).2.2 = none ∧
        c.isWatched heap (c.Client.Get ctx key obj opts).2.1 = false) →
      (c.Get heap ctx key obj opts).stdout = [] ∧
      (c.Get heap ctx key obj opts).client.logger = c.logger) ∧
    ((c.Client.Get ctx key obj opts).2.2 ≠ none →
      (c.Get heap ctx key obj opts).isWatchedCalls = []) ∧
    ((c.Client.Get ctx key obj opts).2.2 = none →
      (c.Get heap ctx key obj opts).isWatchedCalls = [(c.Client.Get ctx key obj opts).2.1]) ∧
    (∀ (p : Nat) (x y : String) (tA : Object),
      c.isWatched = methodValueIsWatched p →
      (heap.cell p).watches = [⟨[labelPredicate x y], tA⟩] →
      (c.Client.Get ctx key obj opts).2.2 = none →
      (reflect.TypeOf (c.Client.Get ctx key obj opts).2.1 ≠ reflect.TypeOf tA →
        (c.Get heap ctx key obj opts).stdout =
          [getWithoutWatchLine (c.Client.Get ctx key obj opts).2.1] ∧
        (c.Get heap ctx key obj opts).client.logger.entries =
          c.logger.entries ++ [getWithoutWatchEntry (c.Client.Get ctx key obj opts).2.1]) ∧
      (reflect.TypeOf (c.Client.Get ctx key obj opts).2.1 = reflect.TypeOf tA →
        hasLabel x y (c.Client.Get ctx key obj opts).2.1 = false →
        (c.Get heap ctx key obj opts).stdout =
          [getWithoutWatchLine (c.Client.Get ctx key obj opts).2.1] ∧
        (c.Get heap ctx key obj opts).client.logger.entries =
          c.logger.entries ++ [getWithoutWatchEntry (c.Client.Get ctx key obj opts).2.1]) ∧
      (reflect.TypeOf (c.Client.Get ctx key obj opts).2.1 = reflect.TypeOf tA →
        hasLabel x y (c.Client.Get ctx key obj opts).2.1 = true →
        (c.Get heap ctx key obj opts).stdout = [] ∧
        (c.Get heap ctx key obj opts).client.logger = c.logger)) := by
  have emit : (c.Client.Get ctx key obj opts).2.2 = none →
      c.isWatched heap (c.Client.Get ctx key obj opts).2.1 = false →
      (c.Get heap ctx key obj opts).stdout =
        [getWithoutWatchLine (c.Client.Get ctx key obj opts).2.1] ∧
      (c.Get heap ctx key obj opts).client.logger.entries =
        c.logger.entries ++ [getWithoutWatchEntry (c.Client.Get ctx key obj opts).2.1] := by
    intro h hw
    rw [Get_of_uncovered c heap ctx key obj opts h hw]
    exact ⟨rfl, rfl⟩
  have quiet : (c.Client.Get ctx key obj opts).2.2 = none →
      c.isWatched heap (c.Client.Get ctx key obj opts).2.1 = true →
      (c.Get heap ctx key obj opts).stdout = [] ∧
      (c.Get heap ctx key obj opts).client.logger = c.logger := by
    intro h hw
    rw [Get_of_covered c heap ctx key obj opts h hw]
    exact ⟨rfl, rfl⟩
  refine ⟨fun h => emit h.1 h.2, ?_, ?_, ?_, ?_⟩
  · intro hn
    cases h : (c.Client.Get ctx key obj opts).2.2 with
    | some e =>
      rw [Get_of_failure c heap ctx key obj opts e h]
      exact ⟨rfl, rfl⟩
    | none =>
      cases hw : c.isWatched heap (c.Client.Get ctx key obj opts).2.1 with
      | false => exact absurd ⟨h, hw⟩ hn
      | true => exact quiet h hw
  · intro hne
    cases h : (c.Client.Get ctx key obj opts).2.2 with
    | some e =>
      rw [Get_of_failure c heap ctx key obj opts e h]
    | none => exact absurd h hne
  · intro h
    cases hw : c.isWatched heap (c.Client.Get ctx key obj opts).2.1 with
    | false => rw [Get_of_uncovered c heap ctx key obj opts h hw]
    | true => rw [Get_of_covered c heap ctx key obj opts h hw]
  · intro p x y tA hc hreg h
    have hv : c.isWatched heap (c.Client.Get ctx key obj opts).2.1 =
        (reflect.TypeOf (c.Client.Get ctx key obj opts).2.1 == reflect.TypeOf tA &&
          hasLabel x y (c.Client.Get ctx key obj opts).2.1) := by
      rw [hc]
      show watchesLoop (heap.cell p).watches _ = _
      rw [hreg, watchesLoop_label_record]
    refine ⟨fun ht => emit h ?_, fun ht hl => emit h ?_, fun ht hl => quiet h ?_⟩
    · rw [hv]; simp [ht]
    · rw [hv, hl]; simp
    · rw [hv, hl]; simp [ht]

/-- Witness of C5: the end-to-end scenario on concrete data: reads of a `B` instance, of an
`A` instance without the label and of an `A` instance with the label. -/
theorem Get_diagnostic_iff_witness :
    (scenarioHeap.cell 0).watches = [⟨[labelPredicate "x" "y"], emptyA⟩] ∧
    ((scenarioClient objB).Get scenarioHeap ⟨0⟩ ⟨"default", "b1"⟩ objB []).stdout =
      [getWithoutWatchLine objB] ∧
    ((scenarioClient objAPlain).Get scenarioHeap ⟨0⟩ ⟨"default", "a2"⟩ emptyA []).stdout =
      [getWithoutWatchLine objAPlain] ∧
    ((scenarioClient objA).Get scenarioHeap ⟨0⟩ ⟨"default", "a1"⟩ emptyA []).stdout = [] :=
  ⟨rfl,
    ((Get_diagnostic_iff (scenarioClient objB) scenarioHeap ⟨0⟩ ⟨"default", "b1"⟩ objB
      []).2.2.2.2 0 "x" "y" emptyA rfl rfl rfl).1 (by decide) |>.1,
    ((Get_diagnostic_iff (scenarioClient objAPlain) scenarioHeap ⟨0⟩ ⟨"default", "a2"⟩ emptyA
      []).2.2.2.2 0 "x" "y" emptyA rfl rfl rfl).2.1 (by decide) (by decide) |>.1,
    ((Get_diagnostic_iff (scenarioClient objA) scenarioHeap ⟨0⟩ ⟨"default", "a1"⟩ emptyA
      []).2.2.2.2 0 "x" "y" emptyA rfl rfl rfl).2.2 (by decide) (by decide) |>.1⟩

/-! ### The integration shim -/

/-- C7, as stated, fails. With a nil error, `Complete` of the `integration` build panics on a
nil handle and on a handle that is not the watch-recording wrapper: it does not return. So
"for every handle and every error, `Complete` returns exactly the error" is false. -/
theorem Complete_panics_on_foreign_handle :
    integration.BaseReconciler.Complete (freshReconciler failingClient) ControllerHandle.nil
        none = Except.error Panic.interfaceConversion ∧
    integration.BaseReconciler.Complete (freshReconciler failingClient)
        (ControllerHandle.other quietController) none = Except.error Panic.interfaceConversion ∧
    ¬ (∀ (b : BaseReconciler) (c : ControllerHandle) (err : Option Error),
        ∃ b2, integration.BaseReconciler.Complete b c err = Except.ok (b2, err)) := by
  refine ⟨rfl, rfl, ?_⟩
  intro h
  obtain ⟨b2, hb⟩ := h (freshReconciler failingClient) ControllerHandle.nil none
  have hp : integration.BaseReconciler.Complete (freshReconciler failingClient)
      ControllerHandle.nil none = Except.error Panic.interfaceConversion := rfl
  rw [hp] at hb
  cases hb

/-- C7, amended. In the `integration` build, whenever the error is non-nil or the handle is
the watch-recording wrapper, `Complete` returns normally with exactly the error it was given;
when the error is non-nil the reconciler (its `IsWatched` field included) is unchanged. And
`newWatchedController` returns the library constructor's error unchanged, with a nil handle
and an untouched heap, when the construction fails. -/
theorem Complete_returns_err (b : BaseReconciler) (c : ControllerHandle) (err : Option Error)
    (h : err ≠ none ∨ ∃ p, c = ControllerHandle.watched p) :
    (∃ b2, integration.BaseReconciler.Complete b c err = Except.ok (b2, err) ∧
      (err ≠ none → b2 = b)) ∧
    (∀ (controllerNew : ControllerNew) (heap : Heap) (name : String) (mgr : Manager)
        (options : Options) (e : Error),
      (controllerNew name mgr options).2 = some e →
      newWatchedController controllerNew heap name mgr options =
        (heap, ControllerHandle.nil, some e)) := by
  constructor
  · cases err with
    | some e => exact ⟨b, rfl, fun _ => rfl⟩
    | none =>
      rcases h with h | ⟨p, rfl⟩
      · exact absurd rfl h
      · exact ⟨_, rfl, fun hn => absurd rfl hn⟩
  · intro controllerNew heap name mgr options e he
    unfold newWatchedController
    simp only [he]

/-- Witness of C7, amended: a failed build handed to `Complete` with a nil handle, and a
failing library constructor. -/
theorem Complete_returns_err_witness :
    ((some (Error.mk "build failed") : Option Error) ≠ none ∨
      ∃ p, ControllerHandle.nil = ControllerHandle.watched p) ∧
    (∃ b2, integration.BaseReconciler.Complete (freshReconciler failingClient)
        ControllerHandle.nil (some ⟨"build failed"⟩) = Except.ok (b2, some ⟨"build failed"⟩) ∧
      ((some (Error.mk "build failed") : Option Error) ≠ none →
        b2 = freshReconciler failingClient)) ∧
    newWatchedController brokenNew emptyHeap "scenario" ⟨0⟩ ⟨0⟩ =
      (emptyHeap, ControllerHandle.nil, some ⟨"no such manager"⟩) :=
  ⟨Or.inl (by simp),
    (Complete_returns_err (freshReconciler failingClient) ControllerHandle.nil
      (some ⟨"build failed"⟩) (Or.inl (by simp))).1,
    (Complete_returns_err (freshReconciler failingClient) ControllerHandle.nil
      (some ⟨"build failed"⟩) (Or.inl (by simp))).2 brokenNew emptyHeap "scenario" ⟨0⟩ ⟨0⟩
      ⟨"no such manager"⟩ rfl⟩

theorem completeAll_of_failures (b : BaseReconciler)
    (calls : List (ControllerHandle × Option Error)) (hf : ∀ k ∈ calls, k.2 ≠ none) :
    integration.completeAll b calls = Except.ok b := by
  induction calls with
  | nil => rfl
  | cons k ks ih =>
    have hk : k.2 ≠ none := hf k (List.mem_cons_self _ _)
    obtain ⟨e, he⟩ := Option.ne_none_iff_exists'.mp hk
    have hc : integration.BaseReconciler.Complete b k.1 k.2 = Except.ok (b, k.2) := by
      rw [he]; rfl
    simp only [integration.completeAll, hc]
    exact ih (fun x hx => hf x (List.mem_cons_of_mem _ hx))

/-- C8. Instrumented client selection. In the `integration` build, `Complete` with the
watch-recording wrapper at address `p` and a nil error succeeds, and `Client()` then returns
an auditing client over the reconciler's raw client and logger whose evaluator is `IsWatched`
of the wrapper behind `p`, that is the section 4.2 verdict over the registry that wrapper
holds. When the `IsWatched` field is nil and every `Complete` call so far (none, or any
number of them) carried a non-nil error, `Client()` returns the raw client itself. -/
theorem Client_after_Complete (b : BaseReconciler) (p : Nat) :
    (∃ b2, integration.BaseReconciler.Complete b (ControllerHandle.watched p) none =
        Except.ok (b2, none) ∧
      ∃ w, integration.BaseReconciler.Client b2 = ClientHandle.isWatched w ∧
        w.Client = b.client ∧ w.logger = b.logger ∧
        (∀ (heap : Heap) (o : Object), w.isWatched heap o = (heap.cell p).IsWatched o) ∧
        (∀ (heap : Heap) (o : Object),
          w.isWatched heap o = specIsWatched (heap.cell p).watches o)) ∧
    (b.IsWatched = none →
      ∀ calls : List (ControllerHandle × Option Error), (∀ k ∈ calls, k.2 ≠ none) →
        ∃ b3, integration.completeAll b calls = Except.ok b3 ∧
          integration.BaseReconciler.Client b3 = ClientHandle.raw b.client) := by
  constructor
  · refine ⟨_, rfl, newIsWatchedClient b.client b.logger (methodValueIsWatched p), rfl, rfl,
      rfl, fun _ _ => rfl, fun heap o => watchesLoop_eq_spec (heap.cell p).watches o⟩
  · intro hn calls hf
    refine ⟨b, completeAll_of_failures b calls hf, ?_⟩
    unfold integration.BaseReconciler.Client
    rw [hn]

/-- Witness of C8: a fresh reconciler after two failed setups returns its raw client, and
after a successful setup with the wrapper at address 0 an auditing client over it. -/
theorem Client_after_Complete_witness :
    (freshReconciler (servingClient objB)).IsWatched = none ∧
    (∃ b3, integration.completeAll (freshReconciler (servingClient objB))
        [(ControllerHandle.nil, some ⟨"build failed"⟩),
         (ControllerHandle.watched 0, some ⟨"build failed"⟩)] = Except.ok b3 ∧
      integration.BaseReconciler.Client b3 = ClientHandle.raw (servingClient objB)) ∧
    (∃ b2, integration.BaseReconciler.Complete (freshReconciler (servingClient objB))
        (ControllerHandle.watched 0) none = Except.ok (b2, none) ∧
      ∃ w, integration.BaseReconciler.Client b2 = ClientHandle.isWatched w ∧
        w.Client = (freshReconciler (servingClient objB)).client ∧
        w.logger = (freshReconciler (servingClient objB)).logger ∧
        (∀ (heap : Heap) (o : Object), w.isWatched heap o = (heap.cell 0).IsWatched o) ∧
        (∀ (heap : Heap) (o : Object),
          w.isWatched heap o = specIsWatched (heap.cell 0).watches o)) :=
  ⟨rfl,
    (Client_after_Complete (freshReconciler (servingClient objB)) 0).2 rfl
      [(ControllerHandle.nil, some ⟨"build failed"⟩),
       (ControllerHandle.watched 0, some ⟨"build failed"⟩)]
      (by simp),
    (Client_after_Complete (freshReconciler (servingClient objB)) 0).1⟩

/-- C9. Passthrough strategy. In the `!integration` build, `Complete` returns exactly the
error it was given for every handle and leaves the reconciler as it was; `Client()` is the
reconciler's raw client, so a read through it calls the raw client once, has the raw client's
object and error, and prints nothing; no auditing client is ever returned. -/
theorem passthrough_strategy (b : BaseReconciler) (c : ControllerHandle) (err : Option Error)
    (heap : Heap) (ctx : Context) (key : ObjectKey) (obj : Object) (opts : List GetOption) :
    nointegration.BaseReconciler.Complete b c err = Except.ok (b, err) ∧
    nointegration.BaseReconciler.Client b = ClientHandle.raw b.client ∧
    (∀ w, nointegration.BaseReconciler.Client b ≠ ClientHandle.isWatched w) ∧
    ((nointegration.BaseReconciler.Client b).Get heap ctx key obj opts).obj =
      (b.client.Get ctx key obj opts).2.1 ∧
    ((nointegration.BaseReconciler.Client b).Get heap ctx key obj opts).err =
      (b.client.Get ctx key obj opts).2.2 ∧
    ((nointegration.BaseReconciler.Client b).Get heap ctx key obj opts).handle =
      ClientHandle.raw (b.client.Get ctx key obj opts).1 ∧
    ((nointegration.BaseReconciler.Client b).Get heap ctx key obj opts).stdout = [] := by
  refine ⟨rfl, rfl, ?_, rfl, rfl, rfl, rfl⟩
  intro w hw
  cases hw

end reconcilers
